import Mathlib

/-!
Verification of the skaya-sdk component-generation pipeline.

This file gives a shallow embedding of the core pipeline of the repository:
the component-type registry and template file resolver
(src/services/TemplateService.ts, src/scripts/templateGenerator.ts), the
AI content generator (src/ai/geminiCodeGenerator.ts), the name-substitution
engine, the file writer, the configuration store (src/utils/configLogger.ts)
and the reference-graph maintainer (updateComponentReferences), and the
project scanner (bin/utils/ProjectScanner.ts).

JavaScript strings are modelled as Lean `String`s; the JS regex/replace
operations used by the source (global literal replace, global
case-insensitive literal replace, and the word-boundary component-type
keyword regex) are implemented as executable character-list scanners with
the same left-to-right, non-overlapping semantics.  External effects
(filesystem reads, the Gemini network call, JSON.parse) are passed in as
explicit data so every function is pure and executable.
-/

deriving instance DecidableEq for Except

namespace Skaya

/-! ## String utilities (JS string-operation models) -/

/-- JS `s.toLowerCase()`. -/
def lowerStr (s : String) : String := String.mk (s.data.map Char.toLower)

/-- JS `s.toUpperCase()`. -/
def upperStr (s : String) : String := String.mk (s.data.map Char.toUpper)

/-- JS `s.charAt(0).toUpperCase() + s.slice(1).toLowerCase()` — the
capitalized-first-letter, rest-lowered form used for pascalCaseName. -/
def capitalizeLower (s : String) : String :=
  match s.data with
  | [] => ""
  | c :: cs => String.mk (c.toUpper :: cs.map Char.toLower)

/-- JS `s.charAt(0).toUpperCase() + s.slice(1)` (rest unchanged). -/
def capitalizeFirst (s : String) : String :=
  match s.data with
  | [] => ""
  | c :: cs => String.mk (c.toUpper :: cs)

/-- Case-sensitive: `l` starts with `pat`. -/
def startsWithList : List Char → List Char → Bool
  | [], _ => true
  | _ :: _, [] => false
  | p :: ps, c :: cs => p = c && startsWithList ps cs

/-- Case-sensitive: strip `pat` from the front of `l`, returning the rest. -/
def stripExact : List Char → List Char → Option (List Char)
  | [], l => some l
  | _ :: _, [] => none
  | p :: ps, c :: cs => if p = c then stripExact ps cs else none

/-- Case-sensitive substring occurrence. -/
def containsSub (pat : List Char) : List Char → Bool
  | [] => startsWithList pat []
  | c :: cs => startsWithList pat (c :: cs) || containsSub pat cs

theorem stripExact_length {pat l m : List Char} (h : stripExact pat l = some m) :
    m.length + pat.length = l.length := by
  induction pat generalizing l with
  | nil => simp [stripExact] at h; simp [h]
  | cons p ps ih =>
    cases l with
    | nil => simp [stripExact] at h
    | cons c cs =>
      simp only [stripExact] at h
      split at h
      · have := ih h; simp [List.length_cons]; omega
      · exact absurd h (by simp)

/-- Case-insensitive character comparison (JS regex flag `i`). -/
def charEqCI (a b : Char) : Bool := a.toLower = b.toLower

/-- Case-insensitively strip `pat` from the front of `l`; returns the
matched text (with the input's original casing) and the rest. -/
def ciStrip : List Char → List Char → Option (List Char × List Char)
  | [], l => some ([], l)
  | _ :: _, [] => none
  | p :: ps, c :: cs =>
    if charEqCI p c then
      match ciStrip ps cs with
      | some (m, r) => some (c :: m, r)
      | none => none
    else none

/-- `l` starts with a case-insensitive occurrence of `pat`. -/
def startsWithCI (pat l : List Char) : Bool := (ciStrip pat l).isSome

/-- Case-insensitive substring occurrence. -/
def containsCI (pat : List Char) : List Char → Bool
  | [] => startsWithCI pat []
  | c :: cs => startsWithCI pat (c :: cs) || containsCI pat cs

theorem ciStrip_spec {pat l m r : List Char} (h : ciStrip pat l = some (m, r)) :
    l = m ++ r ∧ m.length = pat.length := by
  induction pat generalizing l m r with
  | nil => simp [ciStrip] at h; simp [h]
  | cons p ps ih =>
    cases l with
    | nil => simp [ciStrip] at h
    | cons c cs =>
      simp only [ciStrip] at h
      split at h
      · split at h
        · next m' r' heq =>
          rw [Option.some_inj, Prod.mk.injEq] at h
          obtain ⟨h1, h2⟩ := h
          obtain ⟨ha, hb⟩ := ih heq
          subst h1; subst h2
          simp [ha, hb]
        · exact absurd h (by simp)
      · exact absurd h (by simp)

theorem ciStrip_self {pat l m r : List Char} (h : ciStrip pat l = some (m, r)) :
    ciStrip pat m = some (m, []) := by
  induction pat generalizing l m r with
  | nil => simp [ciStrip] at h ⊢; simp [h]
  | cons p ps ih =>
    cases l with
    | nil => simp [ciStrip] at h
    | cons c cs =>
      simp only [ciStrip] at h
      split at h
      · next hc =>
        split at h
        · next m' r' heq =>
          rw [Option.some_inj, Prod.mk.injEq] at h
          obtain ⟨h1, h2⟩ := h
          subst h1
          simp only [ciStrip, hc, if_true, ih heq]
        · exact absurd h (by simp)
      · exact absurd h (by simp)

theorem startsWithList_of_stripExact {pat l rest : List Char}
    (h : stripExact pat l = some rest) : startsWithList pat l = true := by
  induction pat generalizing l with
  | nil => cases l <;> simp [startsWithList]
  | cons p ps ih =>
    cases l with
    | nil => simp [stripExact] at h
    | cons c cs =>
      simp only [stripExact] at h
      split at h
      · next hpc => simp [startsWithList, hpc, ih h]
      · exact absurd h (by simp)

theorem startsWithCI_of_ciStrip {pat l : List Char} {pr : List Char × List Char}
    (h : ciStrip pat l = some pr) : startsWithCI pat l = true := by
  simp [startsWithCI, h]

/-- JS `s.replace(/literal/g, rep)` scanner with explicit fuel: left-to-right,
non-overlapping, case-sensitive global replacement of a literal pattern.
The wrapper below supplies `fuel = l.length`, which never runs out because
every step consumes at least one character. -/
def replaceAllFuel (pat rep : List Char) : Nat → List Char → List Char
  | 0, l => l
  | _ + 1, [] => []
  | fuel + 1, c :: cs =>
    match stripExact pat (c :: cs) with
    | some rest => if pat = [] then c :: cs else rep ++ replaceAllFuel pat rep fuel rest
    | none => c :: replaceAllFuel pat rep fuel cs

/-- JS `s.replace(/literal/g, rep)`. -/
def replaceAllList (pat rep l : List Char) : List Char := replaceAllFuel pat rep l.length l

/-- If the literal pattern does not occur in `l`, global replacement is the
identity. -/
theorem replaceAllFuel_id (pat rep : List Char) :
    ∀ (fuel : Nat) (l : List Char), containsSub pat l = false →
      replaceAllFuel pat rep fuel l = l := by
  intro fuel
  induction fuel with
  | zero => intro l _; rfl
  | succ n ih =>
    intro l hc
    cases l with
    | nil => rfl
    | cons c cs =>
      simp only [containsSub, Bool.or_eq_false_iff] at hc
      obtain ⟨h1, h2⟩ := hc
      simp only [replaceAllFuel]
      rcases hstrip : stripExact pat (c :: cs) with _ | rest
      · simp [ih cs h2]
      · exact absurd (startsWithList_of_stripExact hstrip) (by simp [h1])

theorem replaceAllList_id (pat rep l : List Char) (h : containsSub pat l = false) :
    replaceAllList pat rep l = l :=
  replaceAllFuel_id pat rep l.length l h

/-- JS `s.replace(/literal/gi, f)` scanner with explicit fuel: left-to-right,
non-overlapping, case-insensitive global replacement; `f` receives the
matched text in its original casing (JS replacer function). -/
def replaceCIFuel (pat : List Char) (f : List Char → List Char) : Nat → List Char → List Char
  | 0, l => l
  | _ + 1, [] => []
  | fuel + 1, c :: cs =>
    match ciStrip pat (c :: cs) with
    | some (m, r) => if pat = [] then c :: cs else f m ++ replaceCIFuel pat f fuel r
    | none => c :: replaceCIFuel pat f fuel cs

/-- JS `s.replace(/literal/gi, f)`. -/
def replaceCIList (pat : List Char) (f : List Char → List Char) (l : List Char) : List Char :=
  replaceCIFuel pat f l.length l

/-- The matches consumed by the case-insensitive scanner, in order. -/
def scanOccsFuel (pat : List Char) : Nat → List Char → List (List Char)
  | 0, _ => []
  | _ + 1, [] => []
  | fuel + 1, c :: cs =>
    match ciStrip pat (c :: cs) with
    | some (m, r) => if pat = [] then [] else m :: scanOccsFuel pat fuel r
    | none => scanOccsFuel pat fuel cs

/-- The matches consumed by `replaceCIList`, in order. -/
def scanOccsCI (pat l : List Char) : List (List Char) := scanOccsFuel pat l.length l

/-- If every match the case-insensitive scanner finds is fixed by the
replacer, the global replacement is the identity. -/
theorem replaceCIFuel_id (pat : List Char) (f : List Char → List Char) :
    ∀ (fuel : Nat) (l : List Char), (∀ m ∈ scanOccsFuel pat fuel l, f m = m) →
      replaceCIFuel pat f fuel l = l := by
  intro fuel
  induction fuel with
  | zero => intro l _; rfl
  | succ n ih =>
    intro l hf
    cases l with
    | nil => rfl
    | cons c cs =>
      simp only [replaceCIFuel]
      rcases hstrip : ciStrip pat (c :: cs) with _ | ⟨m, r⟩
      · have hf2 : ∀ x ∈ scanOccsFuel pat n cs, f x = x := by
          intro x hx
          apply hf
          simp only [scanOccsFuel, hstrip]
          exact hx
        simp [ih cs hf2]
      · by_cases hp : pat = []
        · simp [hp]
        · obtain ⟨ha, _⟩ := ciStrip_spec hstrip
          have hfm : f m = m := by
            apply hf
            simp [scanOccsFuel, hstrip, hp]
          have hf2 : ∀ x ∈ scanOccsFuel pat n r, f x = x := by
            intro x hx
            apply hf
            simp [scanOccsFuel, hstrip, hp, hx]
          simp only [hp, if_false, ih r hf2, hfm]
          exact ha.symm

theorem replaceCIList_id (pat : List Char) (f : List Char → List Char) (l : List Char)
    (hf : ∀ m ∈ scanOccsCI pat l, f m = m) : replaceCIList pat f l = l :=
  replaceCIFuel_id pat f l.length l hf

/-! ## The component-type keyword regex

The source replaces bare occurrences of the component-type keyword with the
new component name using the JS regex

  new RegExp(`(?<!React\\.)(\\b|_)ct(?![:])(\\b|_)`, 'gi')

(templateGenerator.ts lines 183-189, TemplateService.ts lines 286-292).
We model the matcher at one position (`matchTypeAt`): the case-insensitive
lookbehind rejecting a preceding `React.`, the first `(\b|_)` alternation
(word boundary preferred, else a consumed underscore), the case-insensitive
keyword, the `(?![:])` lookahead, and the trailing `(\b|_)` alternation. -/

/-- JS `\w`: ASCII letter, digit or underscore. -/
def isWordChar (c : Char) : Bool := c.isAlphanum || c = '_'

/-- A word boundary between an optional previous and next character (string
edges count as non-word). -/
def wordBoundary (prev next : Option Char) : Bool :=
  (match prev with | some c => isWordChar c | none => false) !=
  (match next with | some c => isWordChar c | none => false)

/-- After the keyword has matched `mLen` characters ending in `lastc`, check
the `(?![:])` lookahead and the trailing `(\b|_)` alternation against the
rest; returns the total consumed length. -/
def matchTailLen (mLen : Nat) (lastc : Option Char) (rest : List Char) : Option Nat :=
  match rest with
  | [] => if wordBoundary lastc none then some mLen else none
  | r :: _ =>
    if r = ':' then none
    else if wordBoundary lastc (some r) then some mLen
    else if r = '_' then some (mLen + 1)
    else none

/-- The first alternative: leading `\\b` (zero-width), then the keyword,
lookahead, trailing alternation. -/
def matchPath1 (ct prevRev l : List Char) : Option Nat :=
  if wordBoundary prevRev.head? l.head? then
    match ciStrip ct l with
    | some (m, r) => matchTailLen m.length m.getLast? r
    | none => none
  else none

/-- The second alternative: leading `_` consumed, then the keyword,
lookahead, trailing alternation. -/
def matchPath2 (ct l : List Char) : Option Nat :=
  match l with
  | '_' :: rest =>
    match ciStrip ct rest with
    | some (m, r) => (matchTailLen m.length m.getLast? r).map (· + 1)
    | none => none
  | _ => none

/-- Attempt the keyword regex at one position: `prevRev` is the already
consumed input reversed (for the lookbehind and the leading boundary), `l`
the remaining input.  Returns the number of characters consumed. -/
def matchTypeAt (ct : List Char) (prevRev l : List Char) : Option Nat :=
  if startsWithCI (String.data ".tcaeR") prevRev then none
  else
    match matchPath1 ct prevRev l with
    | some k => some k
    | none => matchPath2 ct l

theorem containsCI_of_startsWithCI {pat l : List Char} (h : startsWithCI pat l = true) :
    containsCI pat l = true := by
  cases l with
  | nil => simp [containsCI, h]
  | cons c cs => simp [containsCI, h]

theorem matchPath1_contains {ct prevRev l : List Char} {k : Nat}
    (h : matchPath1 ct prevRev l = some k) : containsCI ct l = true := by
  unfold matchPath1 at h
  split at h
  · split at h
    · next m r hstrip => exact containsCI_of_startsWithCI (startsWithCI_of_ciStrip hstrip)
    · exact absurd h (by simp)
  · exact absurd h (by simp)

theorem matchPath2_contains {ct l : List Char} {k : Nat}
    (h : matchPath2 ct l = some k) : containsCI ct l = true := by
  unfold matchPath2 at h
  split at h
  · next rest =>
    split at h
    · next m r hstrip =>
      simp only [containsCI, Bool.or_eq_true]
      exact Or.inr (containsCI_of_startsWithCI (startsWithCI_of_ciStrip hstrip))
    · exact absurd h (by simp)
  · exact absurd h (by simp)

/-- A successful keyword match implies a case-insensitive occurrence of the
keyword in the remaining input. -/
theorem matchTypeAt_contains {ct prevRev l : List Char} {k : Nat}
    (h : matchTypeAt ct prevRev l = some k) : containsCI ct l = true := by
  unfold matchTypeAt at h
  split at h
  · exact absurd h (by simp)
  · split at h
    · next k0 hpath => exact matchPath1_contains hpath
    · exact matchPath2_contains h

/-- The keyword-regex global replace with explicit fuel; the wrapper supplies
`fuel = l.length`.  On a match the whole matched text (including consumed
underscores) is replaced by `rep`, mirroring the JS replacer
`(match) => pascalCaseName`; scanning resumes after the match, with the
consumed original characters prepended (reversed) to `prevRev` so the
lookbehind always sees the original input. -/
def typeRegexFuel (ct rep : List Char) : Nat → List Char → List Char → List Char
  | 0, _, l => l
  | _ + 1, _, [] => []
  | fuel + 1, prevRev, c :: cs =>
    if ct = [] then c :: cs
    else
      match matchTypeAt ct prevRev (c :: cs) with
      | some k =>
        rep ++ typeRegexFuel ct rep fuel (((c :: cs).take k).reverse ++ prevRev) ((c :: cs).drop k)
      | none => c :: typeRegexFuel ct rep fuel (c :: prevRev) cs

/-- JS `s.replace(/(?<!React\.)(\b|_)ct(?![:])(\b|_)/gi, rep)`. -/
def typeRegexReplace (s ct rep : String) : String :=
  String.mk (typeRegexFuel ct.data rep.data s.data.length [] s.data)

/-- If the keyword does not occur case-insensitively, the keyword-regex
replacement is the identity. -/
theorem typeRegexFuel_id (ct rep : List Char) :
    ∀ (fuel : Nat) (prevRev l : List Char), containsCI ct l = false →
      typeRegexFuel ct rep fuel prevRev l = l := by
  intro fuel
  induction fuel with
  | zero => intro prevRev l _; rfl
  | succ n ih =>
    intro prevRev l hc
    cases l with
    | nil => rfl
    | cons c cs =>
      simp only [typeRegexFuel]
      split
      · rfl
      · rcases hm : matchTypeAt ct prevRev (c :: cs) with _ | k
        · simp only [containsCI, Bool.or_eq_false_iff] at hc
          simp [ih (c :: prevRev) cs hc.2]
        · exact absurd (matchTypeAt_contains hm) (by simp [hc])

/-! ## String-level wrappers -/

/-- JS `s.replace(/pat/g, rep)` on `String`. -/
def replaceAll (s pat rep : String) : String :=
  String.mk (replaceAllList pat.data rep.data s.data)

/-- JS `s.replace(new RegExp(pat, 'gi'), f)` on `String`. -/
def replaceCIStr (s pat : String) (f : List Char → List Char) : String :=
  String.mk (replaceCIList pat.data f s.data)

/-- JS `s.replace(new RegExp(pat, 'gi'), rep)` with a constant replacement. -/
def replaceCIConst (s pat rep : String) : String :=
  replaceCIStr s pat (fun _ => rep.data)

/-- Case-sensitive substring test on `String`. -/
def containsSubStr (s pat : String) : Bool := containsSub pat.data s.data

/-- Case-insensitive substring test on `String`. -/
def containsCIStr (s pat : String) : Bool := containsCI pat.data s.data

/-- JS `s.endsWith(suffix)` (kernel-computable model). -/
def endsWithStr (s suffix : String) : Bool :=
  startsWithList suffix.data.reverse s.data.reverse

/-! ## Component-type tags (bin/types/enums.ts)

All members of `FrontendComponentType`, `ApiType`, `BackendComponentType`
and `BlokchainComponentType`, with their string values. -/

inductive CompTypeTag where
  | component | page | api
  | redux | withoutRedux
  | route | controller | middleware | scriptBackend
  | contract | library | iface | scriptBlockchain | enumMember
deriving DecidableEq

/-- The string value of each enum member. -/
def CompTypeTag.value : CompTypeTag → String
  | .component => "component"
  | .page => "page"
  | .api => "api"
  | .redux => "redux"
  | .withoutRedux => "without-redux"
  | .route => "route"
  | .controller => "controller"
  | .middleware => "middleware"
  | .scriptBackend => "script"
  | .contract => "contract"
  | .library => "library"
  | .iface => "interface"
  | .scriptBlockchain => "script"
  | .enumMember => "enum"

/-! ## Component-Type Registry (TemplateService.getBaseTemplateFiles,
src/services/TemplateService.ts lines 361-398)

The switch has cases for COMPONENT, PAGE, API, REDUX, ROUTE and CONTROLLER
and throws `Unhandled component type for getTemplateFilesForType: ...` in
the default branch; a thrown error is modelled as `Except.error`. -/

def getBaseTemplateFiles : CompTypeTag → Except String (List String)
  | .component => .ok [CompTypeTag.component.value ++ ".tsx",
      CompTypeTag.component.value ++ ".stories.tsx",
      CompTypeTag.component.value ++ ".test.tsx",
      CompTypeTag.component.value ++ ".css"]
  | .page => .ok [CompTypeTag.page.value ++ ".tsx",
      CompTypeTag.page.value ++ ".test.tsx",
      CompTypeTag.page.value ++ ".css"]
  | .api => .ok [CompTypeTag.api.value ++ "Slice.tsx", "backendRequest.ts"]
  | .redux => .ok ["redux/store.tsx", "redux/storeProvider.tsx"]
  | .route => .ok [CompTypeTag.route.value ++ ".ts",
      CompTypeTag.route.value ++ ".test.ts"]
  | .controller => .ok [CompTypeTag.controller.value ++ ".ts",
      CompTypeTag.controller.value ++ ".test.ts"]
  | t => .error ("Unhandled component type for getTemplateFilesForType: " ++ t.value)

/-- The component types the registry's switch handles. -/
def CompTypeTag.supported : CompTypeTag → Bool
  | .component | .page | .api | .redux | .route | .controller => true
  | _ => false

/-- Dependent (non-primary) artifact file names: tests, stories,
stylesheets — the categories the AI generator treats as supporting files. -/
def isDependentFile (n : String) : Bool :=
  containsSubStr n ".test." || containsSubStr n ".stories." || endsWithStr n ".css"

/-- The registry result is a non-empty list whose head is not a dependent
(test/story/stylesheet) file. -/
def nonEmptyBodyFirst : Except String (List String) → Bool
  | .ok (b :: _) => !(isDependentFile b)
  | _ => false

/-! ## Name-Substitution Engine

The two substitution passes of generateFromTemplate (templateGenerator.ts
lines 174-189) and saveTemplateFiles (TemplateService.ts lines 275-292):
first the Storybook literal `component: Component`, then the three
double-brace placeholders, then the word-boundary component-type keyword
regex.  `X` is the replacement name: `pascalCaseName` in templateGenerator,
the raw `fileName` in TemplateService. -/

def substituteWith (ct : CompTypeTag) (fileName X content : String) : String :=
  let c1 := replaceAll content "component: Component" ("component: " ++ X)
  let c2 := replaceAll c1 "\x7b\x7bcomponent\x7d\x7d" (lowerStr fileName)
  let c3 := replaceAll c2 "\x7b\x7bComponent\x7d\x7d" X
  let c4 := replaceAll c3 "\x7b\x7bCOMPONENT\x7d\x7d" (upperStr fileName)
  typeRegexReplace c4 ct.value X

/-- The substitution pass of generateFromTemplate (templateGenerator.ts
lines 174-189): the replacement name is `pascalCaseName`. -/
def substituteContent (ct : CompTypeTag) (fileName content : String) : String :=
  substituteWith ct fileName (capitalizeLower fileName) content

/-- The substitution pass of saveTemplateFiles (TemplateService.ts lines
275-292): the replacement name is the `fileName` parameter as passed. -/
def substituteContentTS (ct : CompTypeTag) (fileName content : String) : String :=
  substituteWith ct fileName fileName content

/-! ## Template File Resolver -/

/-- First-match association-list lookup (JS object property access). -/
def lookupAssoc {α : Type} : List (String × α) → String → Option α
  | [], _ => none
  | (k, v) :: rest, key => if k = key then some v else lookupAssoc rest key

/-- Target file name computation of the resolver (TemplateService.ts lines
334-338, templateGenerator.ts line 244):
`file.replace(new RegExp(componentType, 'gi'), formattedFileName)` where
`formattedFileName` is the capitalized-first, lowered-rest base name. -/
def resolveTargetFileName (ct : CompTypeTag) (fileName origName : String) : String :=
  replaceCIConst origName ct.value (capitalizeLower fileName)

structure TemplateFileInfo where
  originalFileName : String
  targetFileName : String
  content : Option String
deriving DecidableEq

/-- The resolver (getTemplateFilesForType): for each registry file, compute
the target file name and read the template content from the template
directory (modelled as an association list of file name to content); a
failed read degrades to empty content.  The registry throw for unsupported
component types propagates. -/
def getTemplateFilesForType (ct : CompTypeTag) (fileName : String)
    (templateDir : List (String × String)) : Except String (List TemplateFileInfo) :=
  match getBaseTemplateFiles ct with
  | .error e => .error e
  | .ok baseFiles => .ok (baseFiles.map (fun file =>
      { originalFileName := file,
        targetFileName := resolveTargetFileName ct fileName file,
        content := some ((lookupAssoc templateDir file).getD "") }))

/-- JS `match.charAt(0).toUpperCase() + match.slice(1).toLowerCase()` on a
matched character list. -/
def capitalizeLowerList : List Char → List Char
  | [] => []
  | c :: cs => c.toUpper :: cs.map Char.toLower

/-- AI-mode post-processing of target file names before writing
(templateGenerator.ts lines 153-159): every case-insensitive occurrence of
the base name in the target file name is re-capitalized. -/
def postProcessTargetFileName (fileName targetFileName : String) : String :=
  replaceCIStr targetFileName fileName capitalizeLowerList

/-! ## File Writer (TemplateService.saveTemplateFiles, lines 259-311) -/

/-- Model of `path.join` for the well-formed relative segments the source
joins. -/
def pathJoin (parts : List String) : String := String.intercalate "/" parts

/-- JS falsiness of the optional content (`!content`): undefined or empty. -/
def blankContent : Option String → Bool
  | none => true
  | some c => c = ""

/-- The output path of one file: `process.cwd() / targetFolder /
fileName (+"Page" for page components) / templateFile.targetFileName`. -/
def saveTargetPath (fileName targetFolder : String) (ct : CompTypeTag) (cwd : String)
    (tf : TemplateFileInfo) : String :=
  pathJoin [cwd, targetFolder,
    (if ct = CompTypeTag.page then fileName ++ "Page" else fileName),
    tf.targetFileName]

/-- The loop of saveTemplateFiles: accumulates created paths and the
(path, substituted content) writes; empty/undefined content throws. -/
def saveTemplateFilesGo (fileName targetFolder : String) (ct : CompTypeTag) (cwd : String) :
    List TemplateFileInfo → List String → List (String × String) →
    Except String (List String × List (String × String))
  | [], paths, writes => .ok (paths, writes)
  | tf :: rest, paths, writes =>
    if blankContent tf.content then
      .error ("Template file " ++ tf.originalFileName ++ " is empty.")
    else
      let content := substituteContentTS ct fileName (tf.content.getD "")
      let targetPath := saveTargetPath fileName targetFolder ct cwd tf
      saveTemplateFilesGo fileName targetFolder ct cwd rest
        (paths ++ [targetPath]) (writes ++ [(targetPath, content)])

/-- TemplateService.saveTemplateFiles: returns the created-file paths
(first component) and the performed writes as (path, content) pairs
(second component); a thrown error is `Except.error`. -/
def saveTemplateFiles (templateFiles : List TemplateFileInfo)
    (fileName targetFolder : String) (ct : CompTypeTag) (cwd : String) :
    Except String (List String × List (String × String)) :=
  saveTemplateFilesGo fileName targetFolder ct cwd templateFiles [] []

/-! ## AI Content Generator (src/ai/geminiCodeGenerator.ts) -/

/-- JS `String.prototype.trim()` (kernel-computable model). -/
def trimStr (s : String) : String :=
  String.mk (((s.data.dropWhile Char.isWhitespace).reverse.dropWhile Char.isWhitespace).reverse)

/-- Strip a leading markdown fence: JS `.replace(/^```[a-z]*\n/, '')`. -/
def stripLeadingFence (l : List Char) : List Char :=
  match l with
  | '`' :: '`' :: '`' :: rest =>
    let go : List Char → Option (List Char) := fun r =>
      (r.dropWhile Char.isLower).head?.bind (fun c =>
        if c = '\n' then some ((r.dropWhile Char.isLower).tail) else none)
    match go rest with
    | some r => r
    | none => l
  | _ => l

/-- Strip a trailing markdown fence: JS `.replace(/\n```$/, '')`. -/
def stripTrailingFence (l : List Char) : List Char :=
  match l.reverse with
  | '`' :: '`' :: '`' :: '\n' :: rest => rest.reverse
  | _ => l

/-- generateWithGemini (geminiCodeGenerator.ts lines 288-299): `outcome` is
`none` when the provider call throws (the catch logs and returns the empty
string); otherwise the response text is trimmed and leading/trailing code
fences are stripped. -/
def generateWithGemini (outcome : Option String) : String :=
  match outcome with
  | none => ""
  | some text => String.mk (stripTrailingFence (stripLeadingFence (trimStr text).data))

/-- The sort comparator of generateCodeWithAI (lines 45-60): main component
first, then stylesheets, then tests, everything else tied. -/
def sortCmp (fileName : String) (a b : TemplateFileInfo) : Int :=
  if a.originalFileName = fileName ++ ".tsx" then -1
  else if b.originalFileName = fileName ++ ".tsx" then 1
  else if endsWithStr a.originalFileName ".css" then -1
  else if endsWithStr b.originalFileName ".css" then 1
  else if containsSubStr a.originalFileName ".test." then -1
  else if containsSubStr b.originalFileName ".test." then 1
  else 0

/-- Stable insertion by a JS-style three-way comparator. -/
def insertCmp {α : Type} (cmp : α → α → Int) (x : α) : List α → List α
  | [] => [x]
  | y :: ys => if cmp x y ≤ 0 then x :: y :: ys else y :: insertCmp cmp x ys

/-- Stable sort by a JS-style comparator.  The source comparator is not a
consistent ordering (JS leaves the result engine-defined in that case); we
model a stable sort by the comparator.  No claim below depends on the
relative order of tied dependent files. -/
def sortByCmp {α : Type} (cmp : α → α → Int) : List α → List α
  | [] => []
  | x :: xs => insertCmp cmp x (sortByCmp cmp xs)

def sortTemplateFiles (fileName : String) (files : List TemplateFileInfo) :
    List TemplateFileInfo :=
  sortByCmp (sortCmp fileName) files

/-- Remove the first occurrence (JS `filter(file !== componentFile)` where
`componentFile` is the object `find` returned: reference inequality removes
exactly that element). -/
def removeFirst : List TemplateFileInfo → TemplateFileInfo → List TemplateFileInfo
  | [], _ => []
  | y :: ys, x => if y = x then ys else y :: removeFirst ys x

/-- Split a character list on a separator character. -/
def splitOnChar (sep : Char) (l : List Char) : List (List Char) :=
  l.foldr (fun c acc =>
    match acc with
    | [] => [[c]]
    | a :: as => if c = sep then [] :: a :: as else (c :: a) :: as) [[]]

/-- JS `path.extname` with the leading dot removed (the source applies
`.replace('.', '')` to the extname). -/
def extnameNoDot (s : String) : String :=
  let after := s.data.reverse.takeWhile (fun c => c ≠ '.')
  if after.length = s.data.length then "" else String.mk after.reverse

/-- JS `originalFileName.split('.')` then
`parts.length > 1 ? parts.slice(1).join('.') : ''` (lines 96-97). -/
def depFileType (originalFileName : String) : String :=
  match splitOnChar '.' originalFileName.data with
  | [] => ""
  | [_] => ""
  | _ :: rest => String.intercalate "." (rest.map String.mk)

/-- The arguments generateCodeWithAI passes to getFileSpecificPrompts for
one provider call.  getFileSpecificPrompts is a pure function of these (the
per-run constants componentName, description, options, import list and
update flag are fixed inside one run), so a call record determines the
system and user prompt; `componentContent` is the grounding-context
argument, interpolated into the user prompts of test, story and stylesheet
files. -/
structure GeminiCall where
  fileType : String
  componentType : CompTypeTag
  originalContent : String
  originalFileName : String
  targetFileName : String
  componentContent : Option String
deriving DecidableEq

/-- generateCodeWithAI (geminiCodeGenerator.ts lines 7-120): sort the
template files, locate the main component file by
`originalFileName === fileName + ".tsx" || fileName + ".jsx"` (throwing
`No component file found` otherwise), generate it first with no grounding
context, then generate every other file passing the freshly generated
component content.  Returns the updated files and the provider-call
records in generation order. -/
def generateCodeWithAI (fileName : String) (ct : CompTypeTag)
    (files : List TemplateFileInfo) (oracle : GeminiCall → Option String) :
    Except String (List TemplateFileInfo × List GeminiCall) :=
  let sorted := sortTemplateFiles fileName files
  match sorted.find? (fun f => f.originalFileName = fileName ++ ".tsx" ||
      f.originalFileName = fileName ++ ".jsx") with
  | none => .error ("No component file found for " ++ fileName)
  | some componentFile =>
    let bodyCall : GeminiCall :=
      { fileType := extnameNoDot componentFile.originalFileName,
        componentType := ct,
        originalContent := componentFile.content.getD "",
        originalFileName := componentFile.originalFileName,
        targetFileName := componentFile.targetFileName,
        componentContent := none }
    let generatedComponentContent := generateWithGemini (oracle bodyCall)
    let deps := removeFirst sorted componentFile
    let res := deps.foldl (fun acc tf =>
      let call : GeminiCall :=
        { fileType := depFileType tf.originalFileName,
          componentType := ct,
          originalContent := tf.content.getD "",
          originalFileName := tf.originalFileName,
          targetFileName := tf.targetFileName,
          componentContent := some generatedComponentContent }
      (acc.1 ++ [{ tf with content := some (generateWithGemini (oracle call)) }],
       acc.2 ++ [call]))
      ([{ componentFile with content := some generatedComponentContent }], [bodyCall])
    .ok res

/-! ## generateFromTemplate (src/scripts/templateGenerator.ts) -/

/-- Per-file content resolution of the write loop (templateGenerator.ts
lines 162-171): truthy content is used as-is; empty/undefined content
falls back to reading the original template file from the template
directory, and a missing template file is a thrown error. -/
def resolveContentForWrite (templateDir : List (String × String))
    (tf : TemplateFileInfo) : Except String String :=
  if blankContent tf.content then
    match lookupAssoc templateDir tf.originalFileName with
    | some t => .ok t
    | none => .error ("Template file " ++ tf.originalFileName ++ " not found in template directory")
  else .ok (tf.content.getD "")

/-- One iteration of the write loop (templateGenerator.ts lines 162-210):
resolve content, apply the substitution passes, and compute the output
path `process.cwd() / targetFolder / pascalCaseName (+"Page" for page
components) / templateFile.targetFileName`. -/
def writeOneFile (ct : CompTypeTag) (fileName targetFolder cwd : String)
    (templateDir : List (String × String)) (tf : TemplateFileInfo) :
    Except String (String × String) :=
  match resolveContentForWrite templateDir tf with
  | .error e => .error e
  | .ok content0 =>
    .ok (pathJoin [cwd, targetFolder,
          (if ct = CompTypeTag.page then capitalizeLower fileName ++ "Page"
           else capitalizeLower fileName),
          tf.targetFileName],
         substituteContent ct fileName content0)

/-- The write loop shared by both modes (templateGenerator.ts lines
162-211): per-file resolution, substitution and path computation in order,
a thrown error aborting the loop.  Returns the (path, content) writes; the
created-files return value of the source is the first projection. -/
def writeTemplateFiles (ct : CompTypeTag) (fileName targetFolder cwd : String)
    (templateDir : List (String × String)) :
    List TemplateFileInfo → Except String (List (String × String))
  | [] => .ok []
  | tf :: rest =>
    match writeOneFile ct fileName targetFolder cwd templateDir tf with
    | .error e => .error e
    | .ok x =>
      match writeTemplateFiles ct fileName targetFolder cwd templateDir rest with
      | .error e => .error e
      | .ok xs => .ok (x :: xs)

/-- generateFromTemplate with `useAI = false`: resolver then write loop. -/
def generateFromTemplatePlain (ct : CompTypeTag) (fileName targetFolder cwd : String)
    (templateDir : List (String × String)) : Except String (List (String × String)) :=
  match getTemplateFilesForType ct fileName templateDir with
  | .error e => .error e
  | .ok templateFiles => writeTemplateFiles ct fileName targetFolder cwd templateDir templateFiles

/-- generateFromTemplate with `useAI = true` (templateGenerator.ts lines
106-211): resolver, generateCodeWithAI, the AI target-file-name
post-processing, then the shared write loop. -/
def generateFromTemplateAI (ct : CompTypeTag) (fileName targetFolder cwd : String)
    (templateDir : List (String × String)) (oracle : GeminiCall → Option String) :
    Except String (List (String × String)) :=
  match getTemplateFilesForType ct fileName templateDir with
  | .error e => .error e
  | .ok templateFiles0 =>
    match generateCodeWithAI fileName ct templateFiles0 oracle with
    | .error e => .error e
    | .ok (aiFiles, _calls) =>
      let templateFiles := aiFiles.map (fun tf =>
        { tf with targetFileName := postProcessTargetFileName fileName tf.targetFileName })
      writeTemplateFiles ct fileName targetFolder cwd templateDir templateFiles

/-! ## Configuration Store and Reference Graph Maintainer
(src/utils/configLogger.ts) -/

/-- One entry of a component's `imports` list: `{ name, data }`. -/
structure CompImport where
  name : String
  data : String
deriving DecidableEq

/-- ComponentConfig (configLogger.ts).  Fields the modelled operations never
read (timestamps, aiPrompt) are omitted; the optional `usedBy` is modelled
as a list with `[]` for absent, which the source treats identically (it
initializes a missing `usedBy` to `[]` before appending and skips the
filter when it is missing, and filtering `[]` is a no-op). -/
structure ComponentConfig where
  source : String
  files : List String
  componentType : CompTypeTag
  imports : List CompImport
  usedBy : List String
deriving DecidableEq

/-- ProjectConfig: name, template, optional components map (a JS object,
modelled as a first-match association list with unique keys). -/
structure ProjectConfig where
  name : String
  template : String
  components : Option (List (String × ComponentConfig))
deriving DecidableEq

/-- The whole persisted document: project-type key to ProjectConfig. -/
def Config : Type := List (String × ProjectConfig)

instance : DecidableEq Config := inferInstanceAs (DecidableEq (List (String × ProjectConfig)))

/-- Update the entry of a key in place (JS in-place object mutation). -/
def updateAssoc {α : Type} : List (String × α) → String → (α → α) → List (String × α)
  | [], _, _ => []
  | (k, v) :: rest, key, f =>
    if k = key then (k, f v) :: rest else (k, v) :: updateAssoc rest key f

/-- Removal phase of updateComponentReferences (lines 224-231): if the old
import's name is registered, drop `sourceComponent` from its `usedBy`. -/
def removeOldRef (sourceComponent : String) (m : List (String × ComponentConfig))
    (imp : CompImport) : List (String × ComponentConfig) :=
  match lookupAssoc m imp.name with
  | none => m
  | some _ => updateAssoc m imp.name (fun c =>
      { c with usedBy := c.usedBy.filter (fun comp => comp ≠ sourceComponent) })

/-- Addition phase of updateComponentReferences (lines 234-244): if the new
import's name is registered, append `sourceComponent` to its `usedBy`
unless already present. -/
def addNewRef (sourceComponent : String) (m : List (String × ComponentConfig))
    (imp : CompImport) : List (String × ComponentConfig) :=
  match lookupAssoc m imp.name with
  | none => m
  | some _ => updateAssoc m imp.name (fun c =>
      if c.usedBy.contains sourceComponent then c
      else { c with usedBy := c.usedBy ++ [sourceComponent] })

/-- The two phases over a components map. -/
def updateComponentReferencesOn (sourceComponent : String)
    (newImports oldImports : List CompImport)
    (m : List (String × ComponentConfig)) : List (String × ComponentConfig) :=
  newImports.foldl (addNewRef sourceComponent)
    (oldImports.foldl (removeOldRef sourceComponent) m)

/-- updateComponentReferences (configLogger.ts lines 209-249): re-read
document in, mutated document out.  When the project type has no
components map the function warns and returns without writing. -/
def updateComponentReferences (projectType sourceComponent : String)
    (newImports oldImports : List CompImport) (config : Config) : Config :=
  match (lookupAssoc config projectType).bind (fun p => p.components) with
  | none => config
  | some comps =>
    let comps2 := updateComponentReferencesOn sourceComponent newImports oldImports comps
    updateAssoc config projectType (fun p => { p with components := some comps2 })

/-- Filesystem read failure classes distinguished by the source
(`error.code !== 'ENOENT'` only changes what is logged). -/
inductive FsError where
  | enoent
  | other (msg : String)
deriving DecidableEq

/-- readConfig (configLogger.ts lines 283-298, and the bin variant):
`fs.readFile` outcome and `JSON.parse` are passed in as data; any failure
(missing file or parse throw) is caught and degrades to the empty
document. -/
def readConfig (parseJson : String → Option Config)
    (readResult : Except FsError String) : Config :=
  match readResult with
  | .error _ => []
  | .ok data =>
    match parseJson data with
    | some cfg => cfg
    | none => []

/-- The `usedBy` list of a component in a components map (absent component:
no list, modelled as `[]`). -/
def usedByOf (m : List (String × ComponentConfig)) (b : String) : List String :=
  match lookupAssoc m b with
  | some c => c.usedBy
  | none => []

/-- The components map of one project type in the document. -/
def componentsOf (config : Config) (projectType : String) :
    Option (List (String × ComponentConfig)) :=
  (lookupAssoc config projectType).bind (fun p => p.components)

/-- The `usedBy` list of a component seen through the whole document. -/
def usedByOfCfg (config : Config) (projectType b : String) : List String :=
  match componentsOf config projectType with
  | some m => usedByOf m b
  | none => []

/-! ## Project Scanner (bin/utils/ProjectScanner.ts lines 81-156) -/

/-- One entry of the components directory as seen by `fs.readdir` with
file types: its name, whether it is a directory, the result of reading the
subdirectory (`none`: readdir threw), and the readable files with their
contents. -/
structure ScanDirEntry where
  name : String
  isDirectory : Bool
  files : Option (List String)
  fileContents : List (String × String)
deriving DecidableEq

/-- The scan filesystem: `none` means `fs.access` on the components path
throws (directory absent). -/
structure ScanFs where
  componentsDir : Option (List ScanDirEntry)
deriving DecidableEq

/-- JS `path.basename`. -/
def basenameStr (s : String) : String :=
  match (splitOnChar '/' s.data).getLast? with
  | some l => String.mk l
  | none => s

/-- scanExistingComponents: every failure (missing directory, unreadable
subdirectory or file, a registry throw for an unsupported component type)
is caught; missing directory and registry throw yield `[]`, per-directory
failures skip that directory. -/
def scanExistingComponents (ct : CompTypeTag) (fsx : ScanFs) : List (String × String) :=
  match fsx.componentsDir with
  | none => []
  | some entries =>
    let loop : Except String (List (String × String)) :=
      (entries.filter (fun e => e.isDirectory)).foldlM (fun acc e =>
        match e.files with
        | none => .ok acc
        | some componentFiles =>
          match getBaseTemplateFiles ct with
          | .error msg => .error msg
          | .ok baseFiles =>
            let possibleMainFiles :=
              (baseFiles.map (fun file => replaceCIConst file ct.value e.name)) ++
              [e.name ++ ".tsx", e.name ++ ".jsx",
               capitalizeFirst e.name ++ ".tsx", "index.tsx"]
            match possibleMainFiles.find? (fun f =>
                componentFiles.contains f || componentFiles.contains (basenameStr f)) with
            | none => .ok acc
            | some mainFile =>
              match lookupAssoc e.fileContents mainFile with
              | none => .ok acc
              | some data => .ok (acc ++ [(e.name, data)])) []
    match loop with
    | .ok v => v
    | .error _ => []

/-! ## Shared helper lemmas -/

theorem stringMk_data (s : String) : String.mk s.data = s := by
  cases s
  rfl

theorem replaceAll_id_str (s pat rep : String) (h : containsSubStr s pat = false) :
    replaceAll s pat rep = s := by
  unfold replaceAll
  rw [replaceAllList_id pat.data rep.data s.data h]

theorem typeRegexReplace_id_str (s ct rep : String) (h : containsCIStr s ct = false) :
    typeRegexReplace s ct rep = s := by
  unfold typeRegexReplace
  rw [typeRegexFuel_id ct.data rep.data s.data.length [] s.data h]

/-! ## C6 -/

/-- C6: for every supported component type, `getBaseTemplateFiles` returns
a non-empty ordered file list with the primary/body file first (the head is
not a test, story, or stylesheet name); the embedding is a pure function,
so the list is the same on every call; for every component type outside the
supported set it throws the unsupported-component-type error. -/
theorem c6_registry_files (t : CompTypeTag) :
    (t.supported = true → nonEmptyBodyFirst (getBaseTemplateFiles t) = true) ∧
    (t.supported = false → getBaseTemplateFiles t =
      .error ("Unhandled component type for getTemplateFilesForType: " ++ t.value)) := by
  cases t <;>
    exact ⟨fun h => by first | decide | exact absurd h (by decide),
           fun h => by first | decide | exact absurd h (by decide)⟩

theorem c6_registry_files_witness :
    nonEmptyBodyFirst (getBaseTemplateFiles CompTypeTag.component) = true ∧
    getBaseTemplateFiles CompTypeTag.middleware =
      .error ("Unhandled component type for getTemplateFilesForType: " ++
        CompTypeTag.middleware.value) :=
  ⟨(c6_registry_files CompTypeTag.component).1 (by decide),
   (c6_registry_files CompTypeTag.middleware).2 (by decide)⟩

/-! ## C8 -/

/-- C8: reading the persisted configuration document always succeeds: a
missing config file (ENOENT or any other read failure) and malformed JSON
(the parse returning no document) both degrade to the empty document
instead of raising. -/
theorem c8_read_config_degrades (parseJson : String → Option Config)
    (e : FsError) (data : String) :
    readConfig parseJson (.error e) = ([] : Config) ∧
    (parseJson data = none → readConfig parseJson (.ok data) = ([] : Config)) := by
  refine ⟨rfl, fun h => ?_⟩
  simp [readConfig, h]

theorem c8_read_config_degrades_witness :
    readConfig (fun _ => none) (.ok "this is not json") = ([] : Config) :=
  (c8_read_config_degrades (fun _ => none) FsError.enoent "this is not json").2 rfl

/-! ## C9 -/

/-- C9: when the scan directory does not exist (`fs.access` throws),
`scanExistingComponents` returns the empty list — no existing components —
instead of throwing, so the creation flow continues; the embedding is a
total function into a plain list, every internal failure being caught. -/
theorem c9_scan_missing_dir (ct : CompTypeTag) (fsx : ScanFs)
    (h : fsx.componentsDir = none) : scanExistingComponents ct fsx = [] := by
  unfold scanExistingComponents
  rw [h]

theorem c9_scan_missing_dir_witness :
    scanExistingComponents CompTypeTag.component { componentsDir := none } = [] :=
  c9_scan_missing_dir CompTypeTag.component { componentsDir := none } rfl

/-! ## Association-map lemmas for the Reference Graph Maintainer -/

theorem lookupAssoc_updateAssoc_self {α : Type} (m : List (String × α)) (key : String)
    (f : α → α) : lookupAssoc (updateAssoc m key f) key = (lookupAssoc m key).map f := by
  induction m with
  | nil => rfl
  | cons kv rest ih =>
    obtain ⟨k, v⟩ := kv
    by_cases h : k = key
    · subst h; simp [updateAssoc, lookupAssoc]
    · simp [updateAssoc, lookupAssoc, h, ih]

theorem lookupAssoc_updateAssoc_ne {α : Type} (m : List (String × α)) (key x : String)
    (f : α → α) (h : key ≠ x) :
    lookupAssoc (updateAssoc m key f) x = lookupAssoc m x := by
  induction m with
  | nil => rfl
  | cons kv rest ih =>
    obtain ⟨k, v⟩ := kv
    by_cases hk : k = key
    · subst hk; simp [updateAssoc, lookupAssoc, h]
    · by_cases hx : k = x
      · subst hx; simp [updateAssoc, lookupAssoc, hk]
      · simp [updateAssoc, lookupAssoc, hk, hx, ih]

theorem addNewRef_lookup_ne (s : String) (m : List (String × ComponentConfig))
    (imp : CompImport) (x : String) (h : imp.name ≠ x) :
    lookupAssoc (addNewRef s m imp) x = lookupAssoc m x := by
  unfold addNewRef
  cases lookupAssoc m imp.name with
  | none => rfl
  | some c => exact lookupAssoc_updateAssoc_ne m imp.name x _ h

theorem removeOldRef_lookup_ne (s : String) (m : List (String × ComponentConfig))
    (imp : CompImport) (x : String) (h : imp.name ≠ x) :
    lookupAssoc (removeOldRef s m imp) x = lookupAssoc m x := by
  unfold removeOldRef
  cases lookupAssoc m imp.name with
  | none => rfl
  | some c => exact lookupAssoc_updateAssoc_ne m imp.name x _ h

theorem addNewRef_lookup_self (s : String) (m : List (String × ComponentConfig))
    (imp : CompImport) {c : ComponentConfig} (hl : lookupAssoc m imp.name = some c) :
    lookupAssoc (addNewRef s m imp) imp.name =
      some (if c.usedBy.contains s then c else { c with usedBy := c.usedBy ++ [s] }) := by
  unfold addNewRef
  rw [hl, lookupAssoc_updateAssoc_self, hl]
  rfl

theorem removeOldRef_lookup_self (s : String) (m : List (String × ComponentConfig))
    (imp : CompImport) {c : ComponentConfig} (hl : lookupAssoc m imp.name = some c) :
    lookupAssoc (removeOldRef s m imp) imp.name =
      some { c with usedBy := c.usedBy.filter (fun comp => comp ≠ s) } := by
  unfold removeOldRef
  rw [hl, lookupAssoc_updateAssoc_self, hl]
  rfl

theorem addNewRef_isSome (s : String) (m : List (String × ComponentConfig))
    (imp : CompImport) (x : String) :
    (lookupAssoc (addNewRef s m imp) x).isSome = (lookupAssoc m x).isSome := by
  by_cases h : imp.name = x
  · subst h
    cases hl : lookupAssoc m imp.name with
    | none => simp [addNewRef, hl]
    | some c => rw [addNewRef_lookup_self s m imp hl]; rfl
  · rw [addNewRef_lookup_ne s m imp x h]

theorem removeOldRef_isSome (s : String) (m : List (String × ComponentConfig))
    (imp : CompImport) (x : String) :
    (lookupAssoc (removeOldRef s m imp) x).isSome = (lookupAssoc m x).isSome := by
  by_cases h : imp.name = x
  · subst h
    cases hl : lookupAssoc m imp.name with
    | none => simp [removeOldRef, hl]
    | some c => rw [removeOldRef_lookup_self s m imp hl]; rfl
  · rw [removeOldRef_lookup_ne s m imp x h]

theorem addNewRef_lookup_none (s : String) (m : List (String × ComponentConfig))
    (imp : CompImport) (h : lookupAssoc m imp.name = none) : addNewRef s m imp = m := by
  unfold addNewRef
  rw [h]

theorem removeOldRef_lookup_none (s : String) (m : List (String × ComponentConfig))
    (imp : CompImport) (h : lookupAssoc m imp.name = none) : removeOldRef s m imp = m := by
  unfold removeOldRef
  rw [h]

theorem usedByOf_some {m : List (String × ComponentConfig)} {b : String}
    {c : ComponentConfig} (h : lookupAssoc m b = some c) : usedByOf m b = c.usedBy := by
  unfold usedByOf
  rw [h]

theorem usedByOf_addNewRef_ne (s : String) (m : List (String × ComponentConfig))
    (imp : CompImport) (b : String) (h : imp.name ≠ b) :
    usedByOf (addNewRef s m imp) b = usedByOf m b := by
  unfold usedByOf
  rw [addNewRef_lookup_ne s m imp b h]

theorem usedByOf_removeOldRef_ne (s : String) (m : List (String × ComponentConfig))
    (imp : CompImport) (b : String) (h : imp.name ≠ b) :
    usedByOf (removeOldRef s m imp) b = usedByOf m b := by
  unfold usedByOf
  rw [removeOldRef_lookup_ne s m imp b h]

theorem foldl_addNewRef_lookup_ne (s : String) (imps : List CompImport)
    (m : List (String × ComponentConfig)) (x : String)
    (h : x ∉ imps.map CompImport.name) :
    lookupAssoc (imps.foldl (addNewRef s) m) x = lookupAssoc m x := by
  induction imps generalizing m with
  | nil => rfl
  | cons imp rest ih =>
    simp only [List.map_cons, List.mem_cons, not_or] at h
    simp only [List.foldl_cons]
    rw [ih _ h.2, addNewRef_lookup_ne s m imp x (fun he => h.1 he.symm)]

theorem foldl_removeOldRef_lookup_ne (s : String) (imps : List CompImport)
    (m : List (String × ComponentConfig)) (x : String)
    (h : x ∉ imps.map CompImport.name) :
    lookupAssoc (imps.foldl (removeOldRef s) m) x = lookupAssoc m x := by
  induction imps generalizing m with
  | nil => rfl
  | cons imp rest ih =>
    simp only [List.map_cons, List.mem_cons, not_or] at h
    simp only [List.foldl_cons]
    rw [ih _ h.2, removeOldRef_lookup_ne s m imp x (fun he => h.1 he.symm)]

theorem foldl_addNewRef_isSome (s : String) (imps : List CompImport)
    (m : List (String × ComponentConfig)) (x : String) :
    (lookupAssoc (imps.foldl (addNewRef s) m) x).isSome = (lookupAssoc m x).isSome := by
  induction imps generalizing m with
  | nil => rfl
  | cons imp rest ih =>
    simp only [List.foldl_cons]
    rw [ih, addNewRef_isSome]

theorem foldl_removeOldRef_isSome (s : String) (imps : List CompImport)
    (m : List (String × ComponentConfig)) (x : String) :
    (lookupAssoc (imps.foldl (removeOldRef s) m) x).isSome = (lookupAssoc m x).isSome := by
  induction imps generalizing m with
  | nil => rfl
  | cons imp rest ih =>
    simp only [List.foldl_cons]
    rw [ih, removeOldRef_isSome]

theorem usedByOf_addNewRef_self_of_mem (s : String) (m : List (String × ComponentConfig))
    (imp : CompImport) {c : ComponentConfig} (hl : lookupAssoc m imp.name = some c)
    (hmem : s ∈ c.usedBy) : usedByOf (addNewRef s m imp) imp.name = c.usedBy := by
  rw [usedByOf_some (addNewRef_lookup_self s m imp hl),
    if_pos (List.elem_iff.mpr hmem)]

theorem count_addNewRef_self_le_one (s : String) (m : List (String × ComponentConfig))
    (imp : CompImport) {c : ComponentConfig} (hl : lookupAssoc m imp.name = some c)
    (hle : c.usedBy.count s ≤ 1) :
    (usedByOf (addNewRef s m imp) imp.name).count s = 1 := by
  rw [usedByOf_some (addNewRef_lookup_self s m imp hl)]
  by_cases hmem : s ∈ c.usedBy
  · rw [if_pos (List.elem_iff.mpr hmem)]
    have hpos : 0 < c.usedBy.count s := List.count_pos_iff.mpr hmem
    omega
  · have hc : ¬(c.usedBy.contains s = true) := fun hc => hmem (List.elem_iff.mp hc)
    rw [if_neg hc]
    simp [List.count_append, List.count_eq_zero.mpr hmem]

theorem count_addNewRef_of_pos (s : String) (m : List (String × ComponentConfig))
    (imp : CompImport) (b : String) (hpos : 0 < (usedByOf m b).count s) :
    (usedByOf (addNewRef s m imp) b).count s = (usedByOf m b).count s := by
  by_cases h : imp.name = b
  · subst h
    cases hl : lookupAssoc m imp.name with
    | none => rw [addNewRef_lookup_none s m imp hl]
    | some c =>
      have hub : usedByOf m imp.name = c.usedBy := usedByOf_some hl
      rw [hub] at hpos ⊢
      rw [usedByOf_addNewRef_self_of_mem s m imp hl (List.count_pos_iff.mp hpos)]
  · rw [usedByOf_addNewRef_ne s m imp b h]

theorem foldl_addNewRef_count_of_pos (s : String) (imps : List CompImport)
    (m : List (String × ComponentConfig)) (b : String)
    (hpos : 0 < (usedByOf m b).count s) :
    (usedByOf (imps.foldl (addNewRef s) m) b).count s = (usedByOf m b).count s := by
  induction imps generalizing m with
  | nil => rfl
  | cons imp rest ih =>
    simp only [List.foldl_cons]
    rw [ih _ (by rw [count_addNewRef_of_pos s m imp b hpos]; exact hpos),
      count_addNewRef_of_pos s m imp b hpos]

theorem foldl_addNewRef_count_one (s : String) (imps : List CompImport)
    (m : List (String × ComponentConfig)) (b : String)
    (hreg : (lookupAssoc m b).isSome = true) (hle : (usedByOf m b).count s ≤ 1)
    (hin : b ∈ imps.map CompImport.name) :
    (usedByOf (imps.foldl (addNewRef s) m) b).count s = 1 := by
  induction imps generalizing m with
  | nil => simp at hin
  | cons imp rest ih =>
    simp only [List.foldl_cons]
    by_cases h : imp.name = b
    · subst h
      obtain ⟨c, hl⟩ := Option.isSome_iff_exists.mp hreg
      have hub : usedByOf m imp.name = c.usedBy := usedByOf_some hl
      have h1 : (usedByOf (addNewRef s m imp) imp.name).count s = 1 :=
        count_addNewRef_self_le_one s m imp hl (by rw [hub] at hle; exact hle)
      rw [foldl_addNewRef_count_of_pos s rest _ imp.name (by rw [h1]; omega), h1]
    · rw [List.map_cons] at hin
      rcases List.mem_cons.mp hin with heq | hrest
      · exact absurd heq.symm h
      · exact ih (addNewRef s m imp)
          (by rw [addNewRef_isSome]; exact hreg)
          (by rw [usedByOf_addNewRef_ne s m imp b h]; exact hle) hrest

theorem usedByOf_removeOldRef_self_not_mem (s : String)
    (m : List (String × ComponentConfig)) (imp : CompImport) :
    s ∉ usedByOf (removeOldRef s m imp) imp.name := by
  cases hl : lookupAssoc m imp.name with
  | none =>
    rw [removeOldRef_lookup_none s m imp hl]
    unfold usedByOf
    rw [hl]
    simp
  | some c =>
    unfold usedByOf
    rw [removeOldRef_lookup_self s m imp hl]
    simp

theorem not_mem_usedBy_removeOldRef (s : String) (m : List (String × ComponentConfig))
    (imp : CompImport) (b : String) (h : s ∉ usedByOf m b) :
    s ∉ usedByOf (removeOldRef s m imp) b := by
  by_cases hn : imp.name = b
  · subst hn; exact usedByOf_removeOldRef_self_not_mem s m imp
  · rw [usedByOf_removeOldRef_ne s m imp b hn]; exact h

theorem foldl_removeOldRef_not_mem_preserve (s : String) (imps : List CompImport)
    (m : List (String × ComponentConfig)) (b : String) (h : s ∉ usedByOf m b) :
    s ∉ usedByOf (imps.foldl (removeOldRef s) m) b := by
  induction imps generalizing m with
  | nil => exact h
  | cons imp rest ih =>
    simp only [List.foldl_cons]
    exact ih _ (not_mem_usedBy_removeOldRef s m imp b h)

theorem foldl_removeOldRef_not_mem (s : String) (imps : List CompImport)
    (m : List (String × ComponentConfig)) (b : String)
    (hin : b ∈ imps.map CompImport.name) :
    s ∉ usedByOf (imps.foldl (removeOldRef s) m) b := by
  induction imps generalizing m with
  | nil => simp at hin
  | cons imp rest ih =>
    simp only [List.foldl_cons]
    by_cases h : imp.name = b
    · subst h
      exact foldl_removeOldRef_not_mem_preserve s rest _ imp.name
        (usedByOf_removeOldRef_self_not_mem s m imp)
    · rw [List.map_cons] at hin
      rcases List.mem_cons.mp hin with heq | hrest
      · exact absurd heq.symm h
      · exact ih (removeOldRef s m imp) hrest

theorem reconcileOn_count_one (s : String) (newImports oldImports : List CompImport)
    (m : List (String × ComponentConfig)) (b : String)
    (hreg : (lookupAssoc m b).isSome = true) (hle : (usedByOf m b).count s ≤ 1)
    (hin : b ∈ newImports.map CompImport.name)
    (hnotold : b ∉ oldImports.map CompImport.name) :
    (usedByOf (updateComponentReferencesOn s newImports oldImports m) b).count s = 1 ∧
    (lookupAssoc (updateComponentReferencesOn s newImports oldImports m) b).isSome = true := by
  unfold updateComponentReferencesOn
  have hlook : lookupAssoc (oldImports.foldl (removeOldRef s) m) b = lookupAssoc m b :=
    foldl_removeOldRef_lookup_ne s oldImports m b hnotold
  have hub : usedByOf (oldImports.foldl (removeOldRef s) m) b = usedByOf m b := by
    unfold usedByOf
    rw [hlook]
  constructor
  · exact foldl_addNewRef_count_one s newImports _ b (by rw [hlook]; exact hreg)
      (by rw [hub]; exact hle) hin
  · rw [foldl_addNewRef_isSome, hlook]
    exact hreg

theorem reconcileOn_removed (s : String) (newImports oldImports : List CompImport)
    (m : List (String × ComponentConfig)) (b : String)
    (hin : b ∈ oldImports.map CompImport.name)
    (hnotnew : b ∉ newImports.map CompImport.name) :
    s ∉ usedByOf (updateComponentReferencesOn s newImports oldImports m) b := by
  unfold updateComponentReferencesOn
  have h1 : s ∉ usedByOf (oldImports.foldl (removeOldRef s) m) b :=
    foldl_removeOldRef_not_mem s oldImports m b hin
  have h2 : usedByOf (newImports.foldl (addNewRef s)
      (oldImports.foldl (removeOldRef s) m)) b =
      usedByOf (oldImports.foldl (removeOldRef s) m) b := by
    unfold usedByOf
    rw [foldl_addNewRef_lookup_ne s newImports _ b hnotnew]
  rw [h2]
  exact h1

theorem componentsOf_updateComponentReferences (config : Config)
    (P s : String) (newImports oldImports : List CompImport)
    (comps : List (String × ComponentConfig))
    (hcomps : componentsOf config P = some comps) :
    componentsOf (updateComponentReferences P s newImports oldImports config) P =
      some (updateComponentReferencesOn s newImports oldImports comps) := by
  unfold componentsOf at hcomps
  obtain ⟨p, hp⟩ : ∃ p, lookupAssoc config P = some p := by
    cases hl : lookupAssoc config P with
    | none => rw [hl] at hcomps; exact absurd hcomps (by simp)
    | some p => exact ⟨p, rfl⟩
  unfold updateComponentReferences
  rw [hcomps]
  unfold componentsOf
  rw [lookupAssoc_updateAssoc_self, hp]
  rfl

theorem usedByOfCfg_updateComponentReferences (config : Config)
    (P s b : String) (newImports oldImports : List CompImport)
    (comps : List (String × ComponentConfig))
    (hcomps : componentsOf config P = some comps) :
    usedByOfCfg (updateComponentReferences P s newImports oldImports config) P b =
      usedByOf (updateComponentReferencesOn s newImports oldImports comps) b := by
  unfold usedByOfCfg
  rw [componentsOf_updateComponentReferences config P s newImports oldImports comps hcomps]

/-! ## C2 -/

/-- C2: after `updateComponentReferences(P, Foo, newImports, oldImports)`,
every component registered in the store that is named in
`newImports \ oldImports` and whose `usedBy` was duplicate-free for Foo
(count at most 1 — the spec's invariant that `usedBy` is a set) has `Foo`
in its `usedBy` exactly once, and a second invocation with identical
arguments keeps it exactly once (idempotent append); every component named
in `oldImports \ newImports` no longer has `Foo` anywhere in its
`usedBy`. -/
theorem c2_reconcile_reference_graph
    (config : Config) (P Foo B : String)
    (newImports oldImports : List CompImport)
    (comps : List (String × ComponentConfig))
    (hcomps : componentsOf config P = some comps) :
    (B ∈ newImports.map CompImport.name → B ∉ oldImports.map CompImport.name →
      (lookupAssoc comps B).isSome = true → (usedByOf comps B).count Foo ≤ 1 →
      (usedByOfCfg (updateComponentReferences P Foo newImports oldImports config)
          P B).count Foo = 1 ∧
      (usedByOfCfg (updateComponentReferences P Foo newImports oldImports
          (updateComponentReferences P Foo newImports oldImports config))
          P B).count Foo = 1) ∧
    (B ∈ oldImports.map CompImport.name → B ∉ newImports.map CompImport.name →
      Foo ∉ usedByOfCfg (updateComponentReferences P Foo newImports oldImports config) P B) := by
  constructor
  · intro hin hnotold hreg hle
    have core := reconcileOn_count_one Foo newImports oldImports comps B hreg hle hin hnotold
    have h1 : (usedByOfCfg (updateComponentReferences P Foo newImports oldImports config)
        P B).count Foo = 1 := by
      rw [usedByOfCfg_updateComponentReferences config P Foo B newImports oldImports comps hcomps]
      exact core.1
    refine ⟨h1, ?_⟩
    have hcomps2 := componentsOf_updateComponentReferences config P Foo newImports
      oldImports comps hcomps
    have core2 := reconcileOn_count_one Foo newImports oldImports
      (updateComponentReferencesOn Foo newImports oldImports comps) B core.2
      (by rw [core.1]) hin hnotold
    rw [usedByOfCfg_updateComponentReferences _ P Foo B newImports oldImports _ hcomps2]
    exact core2.1
  · intro hin hnotnew
    rw [usedByOfCfg_updateComponentReferences config P Foo B newImports oldImports comps hcomps]
    exact reconcileOn_removed Foo newImports oldImports comps B hin hnotnew

/-- Concrete store for the C2 witness: one registered component `Bar`. -/
def c2BarConfig : ComponentConfig :=
  { source := "template", files := [], componentType := CompTypeTag.component,
    imports := [], usedBy := [] }

def c2Document : Config :=
  [("frontend",
    { name := "app", template := "custom", components := some [("Bar", c2BarConfig)] })]

def c2BarUsed : ComponentConfig :=
  { source := "template", files := [], componentType := CompTypeTag.component,
    imports := [], usedBy := ["Foo"] }

def c2DocumentUsed : Config :=
  [("frontend",
    { name := "app", template := "custom", components := some [("Bar", c2BarUsed)] })]

theorem c2_reconcile_reference_graph_witness :
    ((usedByOfCfg (updateComponentReferences "frontend" "Foo"
        [{ name := "Bar", data := "d" }] [] c2Document) "frontend" "Bar").count "Foo" = 1 ∧
      (usedByOfCfg (updateComponentReferences "frontend" "Foo"
        [{ name := "Bar", data := "d" }] []
        (updateComponentReferences "frontend" "Foo"
          [{ name := "Bar", data := "d" }] [] c2Document)) "frontend" "Bar").count "Foo" = 1) ∧
    "Foo" ∉ usedByOfCfg (updateComponentReferences "frontend" "Foo"
        [] [{ name := "Bar", data := "d" }] c2DocumentUsed) "frontend" "Bar" :=
  ⟨(c2_reconcile_reference_graph c2Document "frontend" "Foo" "Bar"
      [{ name := "Bar", data := "d" }] [] [("Bar", c2BarConfig)] rfl).1
      (by decide) (by decide) (by decide) (by decide),
   (c2_reconcile_reference_graph c2DocumentUsed "frontend" "Foo" "Bar"
      [] [{ name := "Bar", data := "d" }]
      [("Bar", c2BarUsed)] rfl).2
      (by decide) (by decide)⟩

/-! ## C10 -/

/-- C10: an import entry whose name has no entry in the project's
components map is silently skipped: appending it to either import list
leaves the updated document unchanged, no error is raised (the function is
total), and no new component entry is created for that name. -/
theorem c10_unregistered_import_skipped
    (config : Config) (P Foo u d : String)
    (newImports oldImports : List CompImport)
    (comps : List (String × ComponentConfig))
    (hcomps : componentsOf config P = some comps)
    (hu : lookupAssoc comps u = none) :
    updateComponentReferences P Foo (newImports ++ [{ name := u, data := d }])
        oldImports config =
      updateComponentReferences P Foo newImports oldImports config ∧
    updateComponentReferences P Foo newImports
        (oldImports ++ [{ name := u, data := d }]) config =
      updateComponentReferences P Foo newImports oldImports config ∧
    lookupAssoc (updateComponentReferencesOn Foo newImports oldImports comps) u = none := by
  have humid : ∀ (imps : List CompImport) (m : List (String × ComponentConfig)),
      lookupAssoc m u = none →
      lookupAssoc (imps.foldl (removeOldRef Foo) m) u = none := by
    intro imps m hm
    have hs : (lookupAssoc (imps.foldl (removeOldRef Foo) m) u).isSome = false := by
      rw [foldl_removeOldRef_isSome, hm]
      rfl
    cases hx : lookupAssoc (imps.foldl (removeOldRef Foo) m) u with
    | none => rfl
    | some v => rw [hx] at hs; simp at hs
  have huadd : ∀ (imps : List CompImport) (m : List (String × ComponentConfig)),
      lookupAssoc m u = none →
      lookupAssoc (imps.foldl (addNewRef Foo) m) u = none := by
    intro imps m hm
    have hs : (lookupAssoc (imps.foldl (addNewRef Foo) m) u).isSome = false := by
      rw [foldl_addNewRef_isSome, hm]
      rfl
    cases hx : lookupAssoc (imps.foldl (addNewRef Foo) m) u with
    | none => rfl
    | some v => rw [hx] at hs; simp at hs
  have keyNew : updateComponentReferencesOn Foo (newImports ++ [{ name := u, data := d }])
      oldImports comps = updateComponentReferencesOn Foo newImports oldImports comps := by
    unfold updateComponentReferencesOn
    rw [List.foldl_append]
    simp only [List.foldl_cons, List.foldl_nil]
    exact addNewRef_lookup_none Foo _ { name := u, data := d }
      (huadd newImports _ (humid oldImports comps hu))
  have keyOld : updateComponentReferencesOn Foo newImports
      (oldImports ++ [{ name := u, data := d }]) comps =
      updateComponentReferencesOn Foo newImports oldImports comps := by
    unfold updateComponentReferencesOn
    rw [List.foldl_append]
    simp only [List.foldl_cons, List.foldl_nil]
    rw [removeOldRef_lookup_none Foo _ { name := u, data := d }
      (humid oldImports comps hu)]
  have hb : (lookupAssoc config P).bind (fun p => p.components) = some comps := hcomps
  refine ⟨?_, ?_, ?_⟩
  · unfold updateComponentReferences
    simp only [hb]
    rw [keyNew]
  · unfold updateComponentReferences
    simp only [hb]
    rw [keyOld]
  · exact huadd newImports _ (humid oldImports comps hu)

theorem c10_unregistered_import_skipped_witness :
    updateComponentReferences "frontend" "Foo" [{ name := "Ghost", data := "g" }] []
        c2Document =
      updateComponentReferences "frontend" "Foo" [] [] c2Document ∧
    lookupAssoc (updateComponentReferencesOn "Foo" [] [] [("Bar", c2BarConfig)]) "Ghost" = none :=
  ⟨(c10_unregistered_import_skipped c2Document "frontend" "Foo" "Ghost" "g" [] []
      [("Bar", c2BarConfig)] rfl rfl).1,
   (c10_unregistered_import_skipped c2Document "frontend" "Foo" "Ghost" "g" [] []
      [("Bar", c2BarConfig)] rfl rfl).2.2⟩

/-! ## C7 -/

/-- C7 counterexample: the claim as stated is false.  The content
`component: Component` contains no double-brace placeholder token and no
occurrence of the component-type keyword `page` in any casing, yet the
substitution step for a page component rewrites it (the Storybook
special-case literal replacement fires regardless of the component
type). -/
theorem c7_substitution_not_identity_counterexample :
    containsCIStr "component: Component" CompTypeTag.page.value = false ∧
    containsSubStr "component: Component" "\x7b\x7b" = false ∧
    substituteContent CompTypeTag.page "button" "component: Component" =
      "component: Button" ∧
    substituteContent CompTypeTag.page "button" "component: Component" ≠
      "component: Component" := by
  decide

/-- C7 (amended): the substitution step is the identity on content that
contains no double-brace placeholder token, no case-insensitive occurrence
of the component-type keyword, and additionally no occurrence of the
Storybook special-case literal `component: Component`.  This holds for
both substitution variants (templateGenerator's pascal-cased replacement
and TemplateService's raw-name replacement). -/
theorem c7_substitution_identity (ct : CompTypeTag) (fileName content : String)
    (h1 : containsSubStr content "component: Component" = false)
    (h2 : containsSubStr content "\x7b\x7bcomponent\x7d\x7d" = false)
    (h3 : containsSubStr content "\x7b\x7bComponent\x7d\x7d" = false)
    (h4 : containsSubStr content "\x7b\x7bCOMPONENT\x7d\x7d" = false)
    (h5 : containsCIStr content ct.value = false) :
    substituteContent ct fileName content = content ∧
    substituteContentTS ct fileName content = content := by
  have key : ∀ X : String, substituteWith ct fileName X content = content := by
    intro X
    simp only [substituteWith]
    rw [replaceAll_id_str content "component: Component" _ h1,
      replaceAll_id_str content "\x7b\x7bcomponent\x7d\x7d" _ h2,
      replaceAll_id_str content "\x7b\x7bComponent\x7d\x7d" _ h3,
      replaceAll_id_str content "\x7b\x7bCOMPONENT\x7d\x7d" _ h4,
      typeRegexReplace_id_str content ct.value _ h5]
  exact ⟨key (capitalizeLower fileName), key fileName⟩

theorem c7_substitution_identity_witness :
    substituteContent CompTypeTag.page "button" "export const x = 1;" =
      "export const x = 1;" ∧
    substituteContentTS CompTypeTag.page "button" "export const x = 1;" =
      "export const x = 1;" :=
  c7_substitution_identity CompTypeTag.page "button" "export const x = 1;"
    (by decide) (by decide) (by decide) (by decide) (by decide)

/-! ## C5 -/

/-- C5 counterexample: the claim as stated is false.  For base name `test`
and a UI component, the resolver computes target file name `Test.test.tsx`
from `component.test.tsx`, but the AI-mode post-processing re-capitalizes
every case-insensitive occurrence of the base name before writing, so the
File Writer joins `Test.Test.tsx` — a different name. -/
theorem c5_target_name_drift_counterexample :
    resolveTargetFileName CompTypeTag.component "test" "component.test.tsx" =
      "Test.test.tsx" ∧
    postProcessTargetFileName "test"
      (resolveTargetFileName CompTypeTag.component "test" "component.test.tsx") =
      "Test.Test.tsx" ∧
    postProcessTargetFileName "test"
      (resolveTargetFileName CompTypeTag.component "test" "component.test.tsx") ≠
      resolveTargetFileName CompTypeTag.component "test" "component.test.tsx" := by
  decide

/-- C5 (amended): in template mode the writer uses the resolver's computed
name verbatim, and in AI mode the written name is the resolver name with
every case-insensitive occurrence of the base name re-capitalized; the two
agree exactly when every such occurrence in the resolver-computed name is
already in capitalized form (first letter upper, rest lower) — in
particular for every base name that does not collide with a fragment of
the original template file name. -/
theorem c5_target_name_stability (ct : CompTypeTag) (fileName origName : String)
    (h : ∀ m ∈ scanOccsCI fileName.data
        (resolveTargetFileName ct fileName origName).data,
      capitalizeLowerList m = m) :
    postProcessTargetFileName fileName (resolveTargetFileName ct fileName origName) =
      resolveTargetFileName ct fileName origName := by
  unfold postProcessTargetFileName replaceCIStr
  rw [replaceCIList_id fileName.data capitalizeLowerList
    (resolveTargetFileName ct fileName origName).data h]

theorem c5_target_name_stability_witness :
    postProcessTargetFileName "button"
      (resolveTargetFileName CompTypeTag.component "button" "component.test.tsx") =
      resolveTargetFileName CompTypeTag.component "button" "component.test.tsx" :=
  c5_target_name_stability CompTypeTag.component "button" "component.test.tsx" (by decide)

/-! ## C4 -/

/-- C4 counterexample: the claim as stated is false.  A file whose content
is empty is not skipped: `saveTemplateFiles` raises the
`Template file ... is empty.` error and aborts the whole save, returning
no path list at all. -/
theorem c4_empty_content_errors_counterexample :
    saveTemplateFiles
      [{ originalFileName := "component.tsx", targetFileName := "Button.tsx",
         content := some "" }]
      "Button" "frontend/src/components" CompTypeTag.component "/proj" =
      .error "Template file component.tsx is empty." ∧
    saveTemplateFiles
      [{ originalFileName := "component.tsx", targetFileName := "Button.tsx",
         content := none }]
      "Button" "frontend/src/components" CompTypeTag.component "/proj" =
      .error "Template file component.tsx is empty." := by
  decide

theorem saveTemplateFilesGo_ok (fileName targetFolder : String) (ct : CompTypeTag)
    (cwd : String) (files : List TemplateFileInfo)
    (hok : ∀ tf ∈ files, blankContent tf.content = false) :
    ∀ (paths : List String) (writes : List (String × String)),
      saveTemplateFilesGo fileName targetFolder ct cwd files paths writes =
        .ok (paths ++ files.map (saveTargetPath fileName targetFolder ct cwd),
             writes ++ files.map (fun tf =>
               (saveTargetPath fileName targetFolder ct cwd tf,
                substituteContentTS ct fileName (tf.content.getD "")))) := by
  induction files with
  | nil => intro paths writes; simp [saveTemplateFilesGo]
  | cons tf rest ih =>
    intro paths writes
    have hblank : blankContent tf.content = false := hok tf (List.mem_cons_self tf rest)
    have hrest : ∀ x ∈ rest, blankContent x.content = false :=
      fun x hx => hok x (List.mem_cons_of_mem tf hx)
    simp only [saveTemplateFilesGo, hblank, Bool.false_eq_true, if_false]
    rw [ih hrest]
    simp

theorem saveTemplateFilesGo_error (fileName targetFolder : String) (ct : CompTypeTag)
    (cwd : String) (files : List TemplateFileInfo) (tf0 : TemplateFileInfo)
    (hmem : tf0 ∈ files) (hblank : blankContent tf0.content = true) :
    ∀ (paths : List String) (writes : List (String × String)),
      ∃ e, saveTemplateFilesGo fileName targetFolder ct cwd files paths writes = .error e := by
  induction files with
  | nil => exact absurd hmem (List.not_mem_nil tf0)
  | cons tf rest ih =>
    intro paths writes
    by_cases h : blankContent tf.content = true
    · exact ⟨"Template file " ++ tf.originalFileName ++ " is empty.",
        by simp only [saveTemplateFilesGo, h, if_true]⟩
    · have hne : tf0 ≠ tf := fun he => h (he ▸ hblank)
      have hmem2 : tf0 ∈ rest := by
        rcases List.mem_cons.mp hmem with he | hr
        · exact absurd he hne
        · exact hr
      obtain ⟨e, he⟩ := ih hmem2 (paths ++ [saveTargetPath fileName targetFolder ct cwd tf])
        (writes ++ [(saveTargetPath fileName targetFolder ct cwd tf,
          substituteContentTS ct fileName (tf.content.getD ""))])
      refine ⟨e, ?_⟩
      simp only [saveTemplateFilesGo, h, if_false]
      exact he

/-- C4 (amended): the File Writer does not skip empty/undefined content —
it raises the `Template file ... is empty.` error, aborting the whole
save.  When every content is non-empty, every file is written to
`cwd / targetFolder / fileName ("Page"-suffixed for page components — the
capitalization of the subdirectory is the caller's: saveTemplateFiles uses
the fileName as passed) / targetFileName`, and the returned list contains
exactly the paths written, in order. -/
theorem c4_writer_paths (files : List TemplateFileInfo)
    (fileName targetFolder : String) (ct : CompTypeTag) (cwd : String) :
    ((∀ tf ∈ files, blankContent tf.content = false) →
      saveTemplateFiles files fileName targetFolder ct cwd =
        .ok (files.map (saveTargetPath fileName targetFolder ct cwd),
             files.map (fun tf =>
               (saveTargetPath fileName targetFolder ct cwd tf,
                substituteContentTS ct fileName (tf.content.getD ""))))) ∧
    ((files.map (fun tf => (saveTargetPath fileName targetFolder ct cwd tf,
        substituteContentTS ct fileName (tf.content.getD "")))).map Prod.fst =
      files.map (saveTargetPath fileName targetFolder ct cwd)) ∧
    (∀ tf0 ∈ files, blankContent tf0.content = true →
      ∃ e, saveTemplateFiles files fileName targetFolder ct cwd = .error e) := by
  refine ⟨fun hok => ?_, ?_, fun tf0 hmem hblank => ?_⟩
  · unfold saveTemplateFiles
    rw [saveTemplateFilesGo_ok fileName targetFolder ct cwd files hok [] []]
    simp
  · simp
  · exact saveTemplateFilesGo_error fileName targetFolder ct cwd files tf0 hmem hblank [] []

theorem c4_writer_paths_witness :
    saveTemplateFiles
      [{ originalFileName := "page.tsx", targetFileName := "Home.tsx",
         content := some "BODY" },
       { originalFileName := "page.css", targetFileName := "Home.css",
         content := some "CSS" }]
      "Home" "frontend/src/pages" CompTypeTag.page "/proj" =
      .ok (["/proj/frontend/src/pages/HomePage/Home.tsx",
            "/proj/frontend/src/pages/HomePage/Home.css"],
           [("/proj/frontend/src/pages/HomePage/Home.tsx", "BODY"),
            ("/proj/frontend/src/pages/HomePage/Home.css", "CSS")]) ∧
    (∃ e, saveTemplateFiles
      [{ originalFileName := "page.tsx", targetFileName := "Home.tsx",
         content := some "" }]
      "Home" "frontend/src/pages" CompTypeTag.page "/proj" = .error e) := by
  constructor
  · have := (c4_writer_paths
      [{ originalFileName := "page.tsx", targetFileName := "Home.tsx",
         content := some "BODY" },
       { originalFileName := "page.css", targetFileName := "Home.css",
         content := some "CSS" }]
      "Home" "frontend/src/pages" CompTypeTag.page "/proj").1 (by decide)
    rw [this]
    decide
  · exact (c4_writer_paths
      [{ originalFileName := "page.tsx", targetFileName := "Home.tsx",
         content := some "" }]
      "Home" "frontend/src/pages" CompTypeTag.page "/proj").2.2
      { originalFileName := "page.tsx", targetFileName := "Home.tsx",
        content := some "" } (by decide) (by decide)

/-! ## C3 -/

/-- C3 (code bug): the AI generator looks for the primary/body file by
comparing `originalFileName` against `fileName + ".tsx"`, where `fileName`
is the operator-supplied base name — but its only caller passes template
files whose `originalFileName` is always the canonical template name
(`component.tsx`, ...), so for every base name other than the
component-type token itself the body file is never located and AI-mode
generation throws `No component file found` instead of generating the body
first.  This evaluation exhibits the failure at the canonical input. -/
theorem c3_body_file_lookup_fails :
    generateCodeWithAI "button" CompTypeTag.component
      [{ originalFileName := "component.tsx", targetFileName := "Button.tsx",
         content := some "BODYTPL" },
       { originalFileName := "component.stories.tsx",
         targetFileName := "Button.stories.tsx", content := some "STORIESTPL" },
       { originalFileName := "component.test.tsx",
         targetFileName := "Button.test.tsx", content := some "TESTTPL" },
       { originalFileName := "component.css", targetFileName := "Button.css",
         content := some "CSSTPL" }]
      (fun _ => some "AI") = .error "No component file found for button" := by
  decide

/-! ## C1 -/

/-- Lookup into a successful run's (path, content) result. -/
def okLookup (r : Except String (List (String × String))) (p : String) : Option String :=
  match r with
  | .ok l => lookupAssoc l p
  | .error _ => none

/-- The bundled UI-component template directory for the C1 run. -/
def c1TemplateDir : List (String × String) :=
  [("component.tsx", "BODYTPL"), ("component.stories.tsx", "STORIESTPL"),
   ("component.test.tsx", "TESTTPL"), ("component.css", "CSSTPL")]

/-- A provider that throws exactly on the stylesheet file's call and
returns AI content for every other file. -/
def c1Oracle : GeminiCall → Option String := fun c =>
  if c.originalFileName = "component.css" then none
  else if c.originalFileName = "component.tsx" then some "AIBODY"
  else if c.originalFileName = "component.test.tsx" then some "AITEST"
  else some "AISTORIES"

/-- The provider-call record the run builds for the stylesheet file. -/
def c1CssCall : GeminiCall :=
  { fileType := "css", componentType := CompTypeTag.component,
    originalContent := "CSSTPL", originalFileName := "component.css",
    targetFileName := "Component.css", componentContent := some "AIBODY" }

/-- C1 counterexample: the claim as stated is false.  In an AI-mode run
(base name `component`, so the body lookup of C3 succeeds) where the
stylesheet call throws, only the stylesheet falls back to its template
content; the body file keeps its AI-generated content instead of the
template content — a mixed result, not all-or-nothing. -/
theorem c1_partial_ai_mix_counterexample :
    c1Oracle c1CssCall = none ∧
    ((generateCodeWithAI "component" CompTypeTag.component
        [{ originalFileName := "component.tsx", targetFileName := "Component.tsx",
           content := some "BODYTPL" },
         { originalFileName := "component.stories.tsx",
           targetFileName := "Component.stories.tsx", content := some "STORIESTPL" },
         { originalFileName := "component.test.tsx",
           targetFileName := "Component.test.tsx", content := some "TESTTPL" },
         { originalFileName := "component.css", targetFileName := "Component.css",
           content := some "CSSTPL" }] c1Oracle).toOption.map
      (fun pr => pr.2.contains c1CssCall)) = some true ∧
    okLookup (generateFromTemplateAI CompTypeTag.component "component" "out" "cwd"
        c1TemplateDir c1Oracle) "cwd/out/Component/Component.css" = some "CSSTPL" ∧
    okLookup (generateFromTemplateAI CompTypeTag.component "component" "out" "cwd"
        c1TemplateDir c1Oracle) "cwd/out/Component/Component.tsx" = some "AIBODY" ∧
    okLookup (generateFromTemplatePlain CompTypeTag.component "component" "out" "cwd"
        c1TemplateDir) "cwd/out/Component/Component.tsx" = some "BODYTPL" ∧
    ("AIBODY" : String) ≠ "BODYTPL" := by
  decide

/-- C1 (amended): the fallback is per file, not all-or-nothing.  In the
write loop, a file whose content is blank — in AI mode exactly the files
whose provider call threw or returned blank text, since generateCodeWithAI
stores `generateWithGemini` results as content — receives the substituted
original template content, while every file with non-blank content keeps
it (substituted); a partial AI/template mix is therefore possible. -/
theorem c1_per_file_fallback (ct : CompTypeTag) (fileName targetFolder cwd : String)
    (templateDir : List (String × String)) :
    ∀ (files : List TemplateFileInfo) (res : List (String × String)),
      writeTemplateFiles ct fileName targetFolder cwd templateDir files = .ok res →
      res.length = files.length ∧
      ∀ pr ∈ files.zip res,
        (blankContent pr.1.content = true →
          ∀ tpl, lookupAssoc templateDir pr.1.originalFileName = some tpl →
            pr.2.2 = substituteContent ct fileName tpl) ∧
        (blankContent pr.1.content = false →
          pr.2.2 = substituteContent ct fileName (pr.1.content.getD "")) := by
  intro files
  induction files with
  | nil =>
    intro res h
    simp only [writeTemplateFiles] at h
    cases h
    exact ⟨rfl, fun pr hpr => absurd hpr (by simp)⟩
  | cons tf rest ih =>
    intro res h
    simp only [writeTemplateFiles] at h
    rcases hone : writeOneFile ct fileName targetFolder cwd templateDir tf with e | x
    · rw [hone] at h
      exact absurd h (by simp)
    · rw [hone] at h
      rcases hrest : writeTemplateFiles ct fileName targetFolder cwd templateDir rest
        with e2 | xs
      · rw [hrest] at h
        exact absurd h (by simp)
      · rw [hrest] at h
        rw [Except.ok.injEq] at h
        subst h
        obtain ⟨hlen, hpt⟩ := ih xs hrest
        refine ⟨by simp [hlen], ?_⟩
        intro pr hpr
        rw [List.zip_cons_cons] at hpr
        rcases List.mem_cons.mp hpr with he | htail
        · subst he
          constructor
          · intro hblank tpl htpl
            unfold writeOneFile resolveContentForWrite at hone
            rw [hblank] at hone
            simp only [if_true] at hone
            rw [htpl] at hone
            rw [Except.ok.injEq] at hone
            subst hone
            rfl
          · intro hblank
            unfold writeOneFile resolveContentForWrite at hone
            rw [hblank] at hone
            simp only [Bool.false_eq_true, if_false] at hone
            rw [Except.ok.injEq] at hone
            subst hone
            rfl
        · exact hpt pr htail

theorem c1_per_file_fallback_witness :
    ("CSSTPL" : String) = substituteContent CompTypeTag.component "button" "CSSTPL" ∧
    ("AIBODY" : String) = substituteContent CompTypeTag.component "button" "AIBODY" :=
  ⟨((c1_per_file_fallback CompTypeTag.component "button" "out" "cwd"
      [("component.css", "CSSTPL")]
      [{ originalFileName := "component.tsx", targetFileName := "Button.tsx",
         content := some "AIBODY" },
       { originalFileName := "component.css", targetFileName := "Button.css",
         content := some "" }]
      [("cwd/out/Button/Button.tsx", "AIBODY"), ("cwd/out/Button/Button.css", "CSSTPL")]
      (by decide)).2
      ({ originalFileName := "component.css", targetFileName := "Button.css",
         content := some "" }, ("cwd/out/Button/Button.css", "CSSTPL"))
      (by decide)).1 (by decide) "CSSTPL" (by decide),
   ((c1_per_file_fallback CompTypeTag.component "button" "out" "cwd"
      [("component.css", "CSSTPL")]
      [{ originalFileName := "component.tsx", targetFileName := "Button.tsx",
         content := some "AIBODY" },
       { originalFileName := "component.css", targetFileName := "Button.css",
         content := some "" }]
      [("cwd/out/Button/Button.tsx", "AIBODY"), ("cwd/out/Button/Button.css", "CSSTPL")]
      (by decide)).2
      ({ originalFileName := "component.tsx", targetFileName := "Button.tsx",
         content := some "AIBODY" }, ("cwd/out/Button/Button.tsx", "AIBODY"))
      (by decide)).2 (by decide)⟩

end Skaya
